import Mathlib

/-!
Verification of the order-fulfillment engine of the `payment` repository
(Express + Mongoose e-commerce API) against its natural-language design
specification.

Shallow embedding conventions:

* Mongoose documents become Lean structures; ObjectIds become `Nat` keys.
* JS numbers that take part in integer arithmetic (stock counters, money,
  quantities, timestamps in milliseconds) become `Int`.
* The Mongo collections become association lists `List (Nat × _)` inside a
  `DB` record; `Model.findById` becomes `findById` and `doc.save()` becomes
  `saveById` (replace-in-place).  `saveById` never inserts a fresh key: a
  `save()` of a fetched document only overwrites the stored document.
* Throwing JS code becomes `Except AppErr`.  Calling a method on a `null`
  populated reference (a JS `TypeError`) is the error `AppErr.TypeErr`.
* The route handlers `POST /checkout` and `POST /:id/pay` run inside
  `session.withTransaction`, but only `Order.create([...], { session })` and
  `Payment.create([...], { session })` pass the session.  Every
  `product.save()` (inside `reserveStock` / `releaseReservedStock` /
  `confirmStockDeduction`), every `order.save()` and `cart.clearCart()` is
  issued WITHOUT the session and therefore commits immediately, outside the
  transaction.  The embedding reflects this exactly: session-tracked creates
  are staged and dropped when the handler throws, while all `save()` writes
  are applied to the durable state at once and survive a subsequent throw.
* Mongoose schema `min` validators are not modelled; every theorem below
  either works on concrete states where all written values are non-negative
  or carries hypotheses (`WFProduct`, quantities ≥ 1) under which every
  value written by the modelled code is non-negative, so the omission is
  invisible inside the scope of each statement.
-/

/-- Order lifecycle states, from the `status` enum of `Order.js`. -/
inductive OrderStatus where
  | PENDING_PAYMENT
  | PAID
  | SHIPPED
  | DELIVERED
  | CANCELLED
deriving DecidableEq

/-- A product stock record (`Product.js`): catalog price and the three-tier
stock counters `stock` (total), `availableStock`, `reservedStock`. -/
structure Product where
  price : Int
  stock : Int
  availableStock : Int
  reservedStock : Int
deriving DecidableEq

/-- One order line item (`orderItemSchema` in `Order.js`). -/
structure OrderItem where
  productId : Nat
  quantity : Int
  priceAtPurchase : Int
deriving DecidableEq

/-- An order document (`Order.js`). `paymentDeadline` is a millisecond
timestamp. -/
structure Order where
  userId : Nat
  items : List OrderItem
  totalAmount : Int
  status : OrderStatus
  paymentDeadline : Int
deriving DecidableEq

/-- Payment status enum of `Payment.js`. -/
inductive PayStatus where
  | SUCCESS
  | FAILED
deriving DecidableEq

/-- A payment record (`Payment.js`).  The randomly generated
`transactionId` string is opaque to every claim and is not modelled. -/
structure Payment where
  orderId : Nat
  amount : Int
  status : PayStatus
deriving DecidableEq

/-- One cart line (`cartItemSchema` in `Cart.js`). -/
structure CartItem where
  productId : Nat
  quantity : Int
deriving DecidableEq

/-- Payload of the `send-confirmation-email` job queued in the pay handler
(the opaque `userEmail` string is not modelled). -/
structure EmailJob where
  orderId : Nat
  userId : Nat
  totalAmount : Int
deriving DecidableEq

/-- The typed failures the embedded code can raise.  They stand for the
`AppError`s and plain `Error`s thrown by the source, plus `TypeErr` for the
JS `TypeError` raised by calling a method on a `null` populated product and
`EnqueueFailed` for a failing `emailQueue.add`. -/
inductive AppErr where
  | EmptyCart
  | ProductNotFound
  | InsufficientStock
  | OrderNotFound
  | Forbidden
  | NotPendingPayment
  | OrderExpired
  | InvalidState
  | InvalidTransition
  | EnqueueFailed
  | TypeErr
deriving DecidableEq

/-- `productSchema.methods.reserveStock` (`Product.js` lines 84–91):
fail when `availableStock < quantity`, otherwise move `quantity` units from
available to reserved. -/
def reserveStock (p : Product) (quantity : Int) : Except AppErr Product :=
  if p.availableStock < quantity then
    .error .InsufficientStock
  else
    .ok { p with availableStock := p.availableStock - quantity,
                 reservedStock := p.reservedStock + quantity }

/-- `productSchema.methods.releaseReservedStock` (`Product.js` lines 94–101):
fail when `reservedStock < quantity`, otherwise move `quantity` units from
reserved back to available. -/
def releaseReservedStock (p : Product) (quantity : Int) : Except AppErr Product :=
  if p.reservedStock < quantity then
    .error .InvalidState
  else
    .ok { p with reservedStock := p.reservedStock - quantity,
                 availableStock := p.availableStock + quantity }

/-- `productSchema.methods.confirmStockDeduction` (`Product.js` lines
104–111): fail when `reservedStock < quantity`, otherwise permanently deduct
`quantity` from both reserved and total stock. -/
def confirmStockDeduction (p : Product) (quantity : Int) : Except AppErr Product :=
  if p.reservedStock < quantity then
    .error .InvalidState
  else
    .ok { p with reservedStock := p.reservedStock - quantity,
                 stock := p.stock - quantity }

/-- The `validTransitions` table of `orderSchema.methods.updateStatus`
(`Order.js` lines 55–61). -/
def validTransitions : OrderStatus → List OrderStatus
  | .PENDING_PAYMENT => [.PAID, .CANCELLED]
  | .PAID => [.SHIPPED, .CANCELLED]
  | .SHIPPED => [.DELIVERED]
  | .DELIVERED => []
  | .CANCELLED => []

/-- `orderSchema.methods.updateStatus` (`Order.js` lines 54–69): throw
`InvalidTransition` when the target is not in the table for the current
status, otherwise set the status. -/
def updateStatus (o : Order) (newStatus : OrderStatus) : Except AppErr Order :=
  if newStatus ∈ validTransitions o.status then
    .ok { o with status := newStatus }
  else
    .error .InvalidTransition

/-- `orderSchema.methods.isExpired` (`Order.js` lines 72–74):
`status === PENDING_PAYMENT && now > paymentDeadline`. -/
def isExpired (o : Order) (now : Int) : Bool :=
  decide (o.status = .PENDING_PAYMENT) && decide (now > o.paymentDeadline)

/-- The allowed-transition table exactly as the specification words it
(§4.2): `PENDING_PAYMENT → {PAID, CANCELLED}`; `PAID → {SHIPPED, CANCELLED}`;
`SHIPPED → {DELIVERED}`; `DELIVERED → {}`; `CANCELLED → {}`.  This is the
spec-side definition used to check `updateStatus` against the spec. -/
def specAllowedTransition (s t : OrderStatus) : Bool :=
  match s, t with
  | .PENDING_PAYMENT, .PAID => true
  | .PENDING_PAYMENT, .CANCELLED => true
  | .PAID, .SHIPPED => true
  | .PAID, .CANCELLED => true
  | .SHIPPED, .DELIVERED => true
  | _, _ => false

/-- Well-formedness of a stored product record: the schema's non-negativity
together with spec invariant I1 (`stock = availableStock + reservedStock`). -/
def WFProduct (p : Product) : Prop :=
  0 ≤ p.availableStock ∧ 0 ≤ p.reservedStock ∧
    p.stock = p.availableStock + p.reservedStock

/-- `Model.findById` / keyed lookup in a Mongo collection, embedded as
first-match lookup in an association list. -/
def findById {α : Type} : List (Nat × α) → Nat → Option α
  | [], _ => none
  | (k', v) :: rest, k => if k' = k then some v else findById rest k

/-- `doc.save()` on a fetched document: overwrite the stored value at the
document's key.  It never inserts a key that is not already present. -/
def saveById {α : Type} (l : List (Nat × α)) (k : Nat) (v : α) : List (Nat × α) :=
  l.map (fun kv => if kv.1 = k then (k, v) else kv)

/-- The durable database state: the Mongo collections touched by the core
(products, orders, carts, payments) plus the external notification queue. -/
structure DB where
  products : List (Nat × Product)
  orders : List (Nat × Order)
  carts : List (Nat × List CartItem)
  payments : List Payment
  jobs : List EmailJob
deriving DecidableEq

/-- The per-line stock loops of the pay handler (`orders.js`): both the
expiry-branch release loop (lines 117–120) and the confirmation loop (lines
141–144) iterate the order's items, fetch the populated product and call a
stock method on it, with no guard for a missing product and no per-line
catch: a missing product is a JS `TypeError`, and any thrown error aborts
the loop, keeping the products already saved (their `save()` is outside the
session). `op` is the stock method (`releaseReservedStock` or
`confirmStockDeduction`). -/
def stockLoop (op : Product → Int → Except AppErr Product)
    (ps : List (Nat × Product)) :
    List OrderItem → List (Nat × Product) × Except AppErr Unit
  | [] => (ps, .ok ())
  | it :: rest =>
    match findById ps it.productId with
    | none => (ps, .error .TypeErr)
    | some p =>
      match op p it.quantity with
      | .error e => (ps, .error e)
      | .ok p' => stockLoop op (saveById ps it.productId p') rest

/-- `POST /api/orders/:id/pay` (`orders.js` lines 89–168).

Session semantics of the embedding (see the header comment): the
`Payment.create([...], { session })` is staged and only committed when the
handler body finishes without throwing; `order.save()` and every
`product.save()` are durable immediately.  `enqueueOk` tells whether
`emailQueue.add` succeeds; when it is false the enqueue throws, which aborts
the transaction (dropping the staged payment record) after the durable
status/stock writes already happened. -/
def pay (db : DB) (now : Int) (orderId callerId : Nat) (enqueueOk : Bool) :
    DB × Except AppErr Unit :=
  match findById db.orders orderId with
  | none => (db, .error .OrderNotFound)
  | some order =>
    if order.userId ≠ callerId then (db, .error .Forbidden)
    else if order.status ≠ .PENDING_PAYMENT then (db, .error .NotPendingPayment)
    else if isExpired order now then
      -- durable: order.save() with status CANCELLED (no session)
      let db1 := { db with
        orders := saveById db.orders orderId { order with status := .CANCELLED } }
      -- release loop over the lines (no missing-product guard)
      match stockLoop releaseReservedStock db1.products order.items with
      | (ps, .error e) => ({ db1 with products := ps }, .error e)
      | (ps, .ok _) => ({ db1 with products := ps }, .error .OrderExpired)
    else
      -- staged (session): Payment.create([...], { session })
      let payment : Payment :=
        { orderId := orderId, amount := order.totalAmount, status := .SUCCESS }
      -- durable: order.save() with status PAID (no session)
      let db1 := { db with
        orders := saveById db.orders orderId { order with status := .PAID } }
      -- confirmation loop over the lines (no missing-product guard)
      match stockLoop confirmStockDeduction db1.products order.items with
      | (ps, .error e) =>
        -- throw aborts the transaction: the staged payment record is dropped
        ({ db1 with products := ps }, .error e)
      | (ps, .ok _) =>
        if enqueueOk then
          ({ db1 with products := ps,
                      payments := db1.payments ++ [payment],
                      jobs := db1.jobs ++
                        [{ orderId := orderId, userId := callerId,
                           totalAmount := order.totalAmount }] },
           .ok ())
        else
          -- emailQueue.add throws: transaction aborts, staged payment dropped,
          -- but the PAID status and the stock confirmations were durable
          ({ db1 with products := ps }, .error .EnqueueFailed)

/-- The per-line body of the checkout loop of `POST /api/orders/checkout`
(`orders.js` lines 34–57): look the populated product up, throw
`ProductNotFound` / `InsufficientStock` when it is missing or short, reserve
the stock (a durable `product.save()`), snapshot the price into the order
line and accumulate the total.  On a throw the reservations already saved
stay in the returned products list. -/
def checkoutLoop (ps : List (Nat × Product)) (total : Int)
    (acc : List OrderItem) :
    List CartItem →
      (List (Nat × Product) × Int × List OrderItem) × Except AppErr Unit
  | [] => ((ps, total, acc), .ok ())
  | ci :: rest =>
    match findById ps ci.productId with
    | none => ((ps, total, acc), .error .ProductNotFound)
    | some product =>
      if product.availableStock < ci.quantity then
        ((ps, total, acc), .error .InsufficientStock)
      else
        match reserveStock product ci.quantity with
        | .error e => ((ps, total, acc), .error e)
        | .ok p' =>
          checkoutLoop (saveById ps ci.productId p')
            (total + product.price * ci.quantity)
            (acc ++ [{ productId := ci.productId, quantity := ci.quantity,
                       priceAtPurchase := product.price }]) rest

/-- `POST /api/orders/checkout` (`orders.js` lines 18–84).

The `Order.create([...], { session })` is staged on the session and only
committed (here: appended under the fresh key `newOrderId`) when the handler
body finishes without throwing; the per-line `product.reserveStock` saves
and the `cart.clearCart()` are durable immediately.  `now` is the creation
time; the order's `paymentDeadline` is `now` plus the fixed 15-minute
window, from the schema default of `Order.js`. -/
def checkout (db : DB) (now : Int) (userId : Nat) (newOrderId : Nat) :
    DB × Except AppErr Unit :=
  match findById db.carts userId with
  | none => (db, .error .EmptyCart)
  | some cartItems =>
    if cartItems.isEmpty then (db, .error .EmptyCart)
    else
      match checkoutLoop db.products 0 [] cartItems with
      | ((ps, _, _), .error e) =>
        -- throw aborts the transaction: the staged order is dropped, but the
        -- reservations already saved are durable
        ({ db with products := ps }, .error e)
      | ((ps, total, orderItems), .ok _) =>
        let order : Order :=
          { userId := userId, items := orderItems, totalAmount := total,
            status := .PENDING_PAYMENT, paymentDeadline := now + 15 * 60 * 1000 }
        ({ db with products := ps,
                   carts := saveById db.carts userId [],
                   orders := db.orders ++ [(newOrderId, order)] }, .ok ())

/-- The release loop of the expiry sweep (`orderTimeout.js` lines 31–37):
unlike the pay handler's loop it guards with `if (product)`, silently
skipping a line whose populated product is `null`.  A thrown release error
(caught by the per-order catch) aborts the rest of this order's loop but
keeps the products already saved. -/
def sweepReleaseLoop (ps : List (Nat × Product)) :
    List OrderItem → List (Nat × Product)
  | [] => ps
  | it :: rest =>
    match findById ps it.productId with
    | none => sweepReleaseLoop ps rest
    | some p =>
      match releaseReservedStock p it.quantity with
      | .error _ => ps
      | .ok p' => sweepReleaseLoop (saveById ps it.productId p') rest

/-- Processing of one expired order inside the sweep (`orderTimeout.js`
lines 24–43): set its status to CANCELLED and save (durably), then run the
guarded release loop.  The surrounding try/catch makes the whole per-order
step total: an error is logged, never propagated, so the batch always
continues with the next order. -/
def sweepOne (db : DB) (oid : Nat) (o : Order) : DB :=
  let db1 := { db with
    orders := saveById db.orders oid { o with status := .CANCELLED } }
  { db1 with products := sweepReleaseLoop db1.products o.items }

/-- The query of `cancelExpiredOrders` (`orderTimeout.js` lines 11–14): the
orders with status `PENDING_PAYMENT` and `paymentDeadline < now`. -/
def expiredOrders (db : DB) (now : Int) : List (Nat × Order) :=
  db.orders.filter
    (fun kv => decide (kv.2.status = .PENDING_PAYMENT) &&
               decide (kv.2.paymentDeadline < now))

/-- `cancelExpiredOrders` (`orderTimeout.js` lines 6–49), the sweep invoked
every minute by the cron scheduler: the early `return` when no expired order
was found, else the per-order processing loop.  The JS function returns
`undefined` on every control path (early return, normal end, and the outer
catch), embedded as `none : Option Nat`: the count of cancelled orders is
only logged, never returned. -/
def cancelExpiredOrders (db : DB) (now : Int) : DB × Option Nat :=
  if (expiredOrders db now).isEmpty then (db, none)
  else ((expiredOrders db now).foldl (fun d kv => sweepOne d kv.1 kv.2) db, none)

/-- Concrete state for checking checkout atomicity: product 1 has 5
available units, product 2 has none, and user 7's cart asks for 2 units of
product 1 and 1 unit of product 2. -/
def dbC1 : DB :=
  { products := [(1, ⟨10, 5, 5, 0⟩), (2, ⟨20, 0, 0, 0⟩)],
    orders := [], carts := [(7, [⟨1, 2⟩, ⟨2, 1⟩])],
    payments := [], jobs := [] }

/-- Concrete state for checking pay atomicity: user 7's pending order 1 has
two lines; product 1 holds the matching reservation (2 units) but product 2
has nothing reserved, so the confirmation of the second line fails. -/
def dbC2 : DB :=
  { products := [(1, ⟨10, 5, 3, 2⟩), (2, ⟨20, 5, 5, 0⟩)],
    orders := [(1, ⟨7, [⟨1, 2, 10⟩, ⟨2, 1, 20⟩], 40, .PENDING_PAYMENT, 1000⟩)],
    carts := [], payments := [], jobs := [] }

/-- A pending one-line order of user 7 (2 units of product 1), deadline not
yet passed at time 500. -/
def orderC6 : Order := ⟨7, [⟨1, 2, 10⟩], 20, .PENDING_PAYMENT, 1000⟩

/-- Concrete state for checking the enqueue-failure behaviour of pay: user
7's pending order 1 has one line, fully reserved on product 1, deadline not
yet passed at time 500. -/
def dbC6 : DB :=
  { products := [(1, ⟨10, 5, 3, 2⟩)],
    orders := [(1, orderC6)],
    carts := [], payments := [], jobs := [] }

/-- A pending one-line order of user 7 past its deadline at time 500. -/
def orderC7 : Order := ⟨7, [⟨1, 2, 10⟩], 20, .PENDING_PAYMENT, 100⟩

/-- Concrete state for checking the sweep's return value: user 7's pending
order 1 is past its deadline (100 < 500), its single line reserved on
product 1. -/
def dbC7 : DB :=
  { products := [(1, ⟨10, 5, 3, 2⟩)],
    orders := [(1, orderC7)],
    carts := [], payments := [], jobs := [] }

/-- A pending one-line order of user 7 past its deadline at time 500, used
to exercise the lazy-expiry branch of the pay handler. -/
def orderC4 : Order := ⟨7, [⟨1, 2, 10⟩], 20, .PENDING_PAYMENT, 100⟩

/-- Concrete state for the pay-path expiry cancellation: the reservation of
`orderC4` (2 units) is held on product 1. -/
def dbC4 : DB :=
  { products := [(1, ⟨10, 5, 3, 2⟩)],
    orders := [(1, orderC4)],
    carts := [], payments := [], jobs := [] }

/-- An expired pending order of user 7 whose second line references product
2, a product that no longer exists in the catalog; the first line's
reservation (1 unit) is held on product 1. -/
def orderC10 : Order := ⟨7, [⟨1, 1, 10⟩, ⟨2, 1, 20⟩], 30, .PENDING_PAYMENT, 100⟩

/-- Concrete state for contrasting the sweep's missing-product guard with
the pay path: product 2, referenced by `orderC10`, is absent. -/
def dbC10 : DB :=
  { products := [(1, ⟨10, 5, 4, 1⟩)],
    orders := [(1, orderC10)],
    carts := [], payments := [], jobs := [] }

/-- C3: starting from a product satisfying I1 (`stock = availableStock +
reservedStock`) with all three counters non-negative, each ledger operation
`reserveStock q`, `releaseReservedStock q`, `confirmStockDeduction q` with
`q ≥ 0` yields, on success, a product again satisfying I1 with all counters
(including total stock) non-negative. -/
theorem ledger_ops_preserve_I1 (p : Product) (q : Int) (hq : 0 ≤ q)
    (hwf : WFProduct p) :
    (∀ p', reserveStock p q = .ok p' → WFProduct p' ∧ 0 ≤ p'.stock) ∧
    (∀ p', releaseReservedStock p q = .ok p' → WFProduct p' ∧ 0 ≤ p'.stock) ∧
    (∀ p', confirmStockDeduction p q = .ok p' → WFProduct p' ∧ 0 ≤ p'.stock) := by
  obtain ⟨ha, hr, hI⟩ := hwf
  refine ⟨?_, ?_, ?_⟩ <;>
    · intro p' hok
      simp only [reserveStock, releaseReservedStock, confirmStockDeduction] at hok
      split at hok
      · exact absurd hok (by simp)
      · rename_i hcond
        obtain rfl := Except.ok.inj hok
        refine ⟨⟨?_, ?_, ?_⟩, ?_⟩ <;> simp_all <;> omega

/-- Witness for `ledger_ops_preserve_I1` at a concrete product and
quantity. -/
theorem ledger_ops_preserve_I1_witness :
    (∀ p', reserveStock ⟨10, 5, 3, 2⟩ 2 = .ok p' → WFProduct p' ∧ 0 ≤ p'.stock) ∧
    (∀ p', releaseReservedStock ⟨10, 5, 3, 2⟩ 2 = .ok p' → WFProduct p' ∧ 0 ≤ p'.stock) ∧
    (∀ p', confirmStockDeduction ⟨10, 5, 3, 2⟩ 2 = .ok p' → WFProduct p' ∧ 0 ≤ p'.stock) :=
  ledger_ops_preserve_I1 ⟨10, 5, 3, 2⟩ 2 (by decide) ⟨by decide, by decide, by decide⟩

/-- C5: `updateStatus` succeeds, setting the status to the target, exactly
when the (status, target) pair is in the allowed-transition table of the
spec, and fails with `InvalidTransition` (returning no changed order) on
every pair outside the table; in particular every self-transition is outside
the table. -/
theorem updateStatus_matches_table :
    (∀ (o : Order) (t : OrderStatus),
      updateStatus o t =
        if specAllowedTransition o.status t then Except.ok { o with status := t }
        else Except.error AppErr.InvalidTransition) ∧
    (∀ s : OrderStatus, specAllowedTransition s s = false) := by
  constructor
  · intro o t
    cases h : o.status <;> cases t <;>
      simp [updateStatus, specAllowedTransition, validTransitions, h]
  · intro s
    cases s <;> rfl

/-- C8: for a product with `availableStock ≥ q` and a non-negative reserved
counter, reserving `q` and then releasing `q` returns the product record
exactly to its original value (all three counters and the price). -/
theorem reserve_then_release_roundtrip (p : Product) (q : Int)
    (hq : q ≤ p.availableStock) (hr : 0 ≤ p.reservedStock) :
    (reserveStock p q).bind (fun p1 => releaseReservedStock p1 q) = .ok p := by
  obtain ⟨pr, st, av, rs⟩ := p
  simp only [reserveStock, releaseReservedStock] at *
  rw [if_neg (by simp; omega)]
  show releaseReservedStock _ _ = _
  rw [releaseReservedStock, if_neg (by simp; omega)]
  simp

/-- Witness for `reserve_then_release_roundtrip` at a concrete product and
quantity. -/
theorem reserve_then_release_roundtrip_witness :
    (reserveStock ⟨10, 5, 5, 0⟩ 3).bind (fun p1 => releaseReservedStock p1 3) =
      .ok ⟨10, 5, 5, 0⟩ :=
  reserve_then_release_roundtrip ⟨10, 5, 5, 0⟩ 3 (by decide) (by decide)

/-- C9: for a product with `reservedStock ≥ q`, `confirmStockDeduction q`
succeeds and decreases total `stock` by exactly `q`, decreases
`reservedStock` by exactly `q`, and leaves `availableStock` (and the price)
unchanged. -/
theorem confirm_moves_total_and_reserved (p : Product) (q : Int)
    (h : q ≤ p.reservedStock) :
    ∃ p', confirmStockDeduction p q = .ok p' ∧
      p'.stock = p.stock - q ∧
      p'.reservedStock = p.reservedStock - q ∧
      p'.availableStock = p.availableStock ∧
      p'.price = p.price := by
  refine ⟨{ p with reservedStock := p.reservedStock - q, stock := p.stock - q },
    ?_, rfl, rfl, rfl, rfl⟩
  simp only [confirmStockDeduction, if_neg (not_lt.mpr h)]

/-- Witness for `confirm_moves_total_and_reserved` at a concrete product and
quantity. -/
theorem confirm_moves_total_and_reserved_witness :
    ∃ p', confirmStockDeduction ⟨10, 5, 3, 2⟩ 2 = .ok p' ∧
      p'.stock = (5 : Int) - 2 ∧
      p'.reservedStock = (2 : Int) - 2 ∧
      p'.availableStock = (3 : Int) ∧
      p'.price = (10 : Int) :=
  confirm_moves_total_and_reserved ⟨10, 5, 3, 2⟩ 2 (by decide)

/-- C1: the claim that a failed checkout leaves every product's
`availableStock`/`reservedStock` unchanged is violated by the code.  With
`dbC1`, the first cart line reserves 2 units of product 1 (a durable
`product.save()` without the session); the second line then fails with
`InsufficientStock`, the transaction aborts and drops only the staged order
— product 1 keeps the applied reservation (3 available / 2 reserved instead
of the original 5 / 0). -/
theorem checkout_partial_reservation_persists :
    (checkout dbC1 0 7 100).2 = .error .InsufficientStock ∧
    (checkout dbC1 0 7 100).1.orders = [] ∧
    findById dbC1.products 1 = some ⟨10, 5, 5, 0⟩ ∧
    findById (checkout dbC1 0 7 100).1.products 1 = some ⟨10, 5, 3, 2⟩ ∧
    findById (checkout dbC1 0 7 100).1.products 1 ≠ findById dbC1.products 1 :=
  ⟨rfl, rfl, rfl, rfl, by decide⟩

/-- C2: the claim that payment-record creation, the PAID transition and the
per-line confirmations commit atomically is violated by the code.  With
`dbC2`, the confirmation of the second line fails (`reservedStock <
quantity`); the transaction aborts and rolls back only the staged payment
record, while the durable `save()` writes survive: the order ends `PAID`,
the first line's stock is confirmed, the second line's is not, and no
payment record exists. -/
theorem pay_partial_commit_persists :
    (pay dbC2 500 1 7 true).2 = .error .InvalidState ∧
    (findById (pay dbC2 500 1 7 true).1.orders 1).map Order.status =
      some .PAID ∧
    (pay dbC2 500 1 7 true).1.payments = [] ∧
    findById (pay dbC2 500 1 7 true).1.products 1 = some ⟨10, 3, 3, 0⟩ ∧
    findById (pay dbC2 500 1 7 true).1.products 2 = some ⟨20, 5, 5, 0⟩ :=
  ⟨rfl, rfl, rfl, rfl, rfl⟩

/-- C6 counterexample: when `emailQueue.add` fails, the payment record does
NOT remain in place, contrary to the claim.  With `dbC6`, a failing enqueue
aborts the transaction, which rolls back the session-staged payment record
(the payments collection stays empty), even though the same call with a
working queue would have created it; the PAID status and the stock
confirmation, being durable writes, do survive. -/
theorem pay_enqueue_failure_drops_payment_record :
    (pay dbC6 500 1 7 false).2 = .error .EnqueueFailed ∧
    (pay dbC6 500 1 7 false).1.payments = [] ∧
    (findById (pay dbC6 500 1 7 false).1.orders 1).map Order.status =
      some .PAID ∧
    findById (pay dbC6 500 1 7 false).1.products 1 = some ⟨10, 3, 3, 0⟩ ∧
    (pay dbC6 500 1 7 true).1.payments = [⟨1, 20, .SUCCESS⟩] :=
  ⟨rfl, rfl, rfl, rfl, rfl⟩

/-- C7 counterexample: `cancelExpiredOrders` does not return the count of
orders it cancelled.  With `dbC7` it cancels exactly one order (order 1 is
driven to CANCELLED and its reservation released), yet its return value is
`none` (the JS function returns `undefined` on every path), not `some 1`. -/
theorem cancelExpiredOrders_returns_no_count :
    (cancelExpiredOrders dbC7 500).2 = none ∧
    (findById (cancelExpiredOrders dbC7 500).1.orders 1).map Order.status =
      some .CANCELLED ∧
    findById (cancelExpiredOrders dbC7 500).1.products 1 = some ⟨10, 5, 5, 0⟩ ∧
    (cancelExpiredOrders dbC7 500).2 ≠ some 1 := by
  decide

/-- A successful lookup returns an entry of the list. -/
theorem findById_eq_some_mem {α : Type} {l : List (Nat × α)} {k : Nat} {v : α}
    (h : findById l k = some v) : (k, v) ∈ l := by
  induction l with
  | nil => simp [findById] at h
  | cons kv rest ih =>
    obtain ⟨k', v'⟩ := kv
    simp only [findById] at h
    split at h
    · rename_i heq
      obtain rfl := Option.some.inj h
      subst heq
      exact List.mem_cons_self _ _
    · exact List.mem_cons_of_mem _ (ih h)

/-- A key that occurs in the list is found. -/
theorem mem_findById_isSome {α : Type} {l : List (Nat × α)} {k : Nat} {v : α}
    (h : (k, v) ∈ l) : (findById l k).isSome := by
  induction l with
  | nil => simp at h
  | cons kv rest ih =>
    obtain ⟨k', v'⟩ := kv
    rcases List.mem_cons.mp h with h1 | h2
    · obtain ⟨rfl, rfl⟩ := Prod.mk.injEq .. ▸ h1
      simp [findById]
    · simp only [findById]
      split
      · simp
      · exact ih h2

/-- Unfolding of `saveById` on a cons cell. -/
theorem saveById_cons {α : Type} (k' : Nat) (v' : α) (rest : List (Nat × α))
    (k : Nat) (v : α) :
    saveById ((k', v') :: rest) k v =
      (if k' = k then (k, v) else (k', v')) :: saveById rest k v := rfl

/-- Unfolding of `findById` on a cons cell. -/
theorem findById_cons {α : Type} (k' : Nat) (v' : α) (rest : List (Nat × α))
    (k : Nat) :
    findById ((k', v') :: rest) k =
      if k' = k then some v' else findById rest k := rfl

/-- Saving at a present key makes the lookup return the saved value. -/
theorem findById_saveById_self {α : Type} {l : List (Nat × α)} {k : Nat}
    {p : α} (v : α) (h : findById l k = some p) :
    findById (saveById l k v) k = some v := by
  induction l with
  | nil => simp [findById] at h
  | cons kv rest ih =>
    obtain ⟨k', v'⟩ := kv
    rw [findById_cons] at h
    rw [saveById_cons]
    by_cases hk : k' = k
    · rw [if_pos hk, findById_cons, if_pos rfl]
    · rw [if_neg hk] at h
      rw [if_neg hk, findById_cons, if_neg hk]
      exact ih h

/-- Saving at one key leaves lookups at other keys unchanged. -/
theorem findById_saveById_ne {α : Type} {l : List (Nat × α)} {k j : Nat}
    {v : α} (hne : j ≠ k) :
    findById (saveById l k v) j = findById l j := by
  induction l with
  | nil => rfl
  | cons kv rest ih =>
    obtain ⟨k', v'⟩ := kv
    rw [saveById_cons, findById_cons]
    by_cases hk : k' = k
    · rw [if_pos hk, findById_cons, if_neg (fun h => hne h.symm), ih,
        if_neg (by omega)]
    · rw [if_neg hk, findById_cons, ih]

/-- Saving never creates a key: an absent key stays absent. -/
theorem findById_saveById_none {α : Type} {l : List (Nat × α)} {k j : Nat}
    {v : α} (h : findById l j = none) :
    findById (saveById l k v) j = none := by
  induction l with
  | nil => rfl
  | cons kv rest ih =>
    obtain ⟨k', v'⟩ := kv
    rw [findById_cons] at h
    by_cases hj : k' = j
    · rw [if_pos hj] at h
      exact absurd h (by simp)
    · rw [if_neg hj] at h
      rw [saveById_cons]
      by_cases hk : k' = k
      · rw [if_pos hk, findById_cons, if_neg (by omega), ih h]
      · rw [if_neg hk, findById_cons, if_neg hj, ih h]

/-- When every line of `items` (with pairwise-distinct product ids) finds
its product and the stock operation `op` succeeds on it with result
`newP p quantity`, the loop succeeds, rewrites each line's product to the
operation's result, and leaves every other key untouched. -/
theorem stockLoop_spec (op : Product → Int → Except AppErr Product)
    (newP : Product → Int → Product)
    (items : List OrderItem) (ps : List (Nat × Product))
    (hnd : (items.map OrderItem.productId).Nodup)
    (hok : ∀ it ∈ items, ∃ p, findById ps it.productId = some p ∧
             op p it.quantity = .ok (newP p it.quantity)) :
    (stockLoop op ps items).2 = .ok () ∧
    (∀ it ∈ items, ∀ p, findById ps it.productId = some p →
       findById (stockLoop op ps items).1 it.productId =
         some (newP p it.quantity)) ∧
    (∀ k, k ∉ items.map OrderItem.productId →
       findById (stockLoop op ps items).1 k = findById ps k) := by
  induction items generalizing ps with
  | nil => simp [stockLoop]
  | cons it rest ih =>
    obtain ⟨p, hp, hop⟩ := hok it (List.mem_cons_self _ _)
    simp only [List.map_cons, List.nodup_cons] at hnd
    obtain ⟨hnotin, hndrest⟩ := hnd
    have hloop : stockLoop op ps (it :: rest) =
        stockLoop op (saveById ps it.productId (newP p it.quantity)) rest := by
      simp only [stockLoop, hp, hop]
    have hok' : ∀ it' ∈ rest,
        ∃ q, findById (saveById ps it.productId (newP p it.quantity))
               it'.productId = some q ∧
             op q it'.quantity = .ok (newP q it'.quantity) := by
      intro it' hit'
      obtain ⟨q, hq, hopq⟩ := hok it' (List.mem_cons_of_mem _ hit')
      have hne : it'.productId ≠ it.productId := by
        intro hcontr
        exact hnotin (hcontr ▸ List.mem_map.mpr ⟨it', hit', rfl⟩)
      exact ⟨q, by rw [findById_saveById_ne hne]; exact hq, hopq⟩
    obtain ⟨ih1, ih2, ih3⟩ := ih _ hndrest hok'
    refine ⟨by rw [hloop]; exact ih1, ?_, ?_⟩
    · intro it' hit' p0 hp0
      rcases List.mem_cons.mp hit' with rfl | hmem
      · obtain rfl : p0 = p := by
          have := hp0.symm.trans hp
          exact Option.some.inj this
        rw [hloop, ih3 it'.productId hnotin,
          findById_saveById_self _ hp0]
      · have hne : it'.productId ≠ it.productId := by
          intro hcontr
          exact hnotin (hcontr ▸ List.mem_map.mpr ⟨it', hmem, rfl⟩)
        have hp0' : findById (saveById ps it.productId (newP p it.quantity))
            it'.productId = some p0 := by
          rw [findById_saveById_ne hne]; exact hp0
        rw [hloop]
        exact ih2 it' hmem p0 hp0'
    · intro k hk
      simp only [List.map_cons, List.mem_cons, not_or] at hk
      obtain ⟨hk1, hk2⟩ := hk
      rw [hloop, ih3 k hk2, findById_saveById_ne hk1]

/-- When the lines before `miss` (pairwise-distinct ids) all find their
product and succeed, but `miss`'s product is absent, the unguarded loop of
the pay handler reaches `miss` and fails with the JS `TypeError`. -/
theorem stockLoop_missing (op : Product → Int → Except AppErr Product)
    (pre : List OrderItem) (miss : OrderItem) (post : List OrderItem)
    (ps : List (Nat × Product))
    (hnd : (pre.map OrderItem.productId).Nodup)
    (hok : ∀ it ∈ pre, ∃ p p', findById ps it.productId = some p ∧
             op p it.quantity = .ok p')
    (hmiss : findById ps miss.productId = none) :
    (stockLoop op ps (pre ++ miss :: post)).2 = .error .TypeErr := by
  induction pre generalizing ps with
  | nil => simp [stockLoop, hmiss]
  | cons it rest ih =>
    obtain ⟨p, p', hp, hop⟩ := hok it (List.mem_cons_self _ _)
    simp only [List.map_cons, List.nodup_cons] at hnd
    obtain ⟨hnotin, hndrest⟩ := hnd
    have hloop : stockLoop op ps ((it :: rest) ++ miss :: post) =
        stockLoop op (saveById ps it.productId p') (rest ++ miss :: post) := by
      rw [List.cons_append]
      simp only [stockLoop, hp, hop]
    rw [hloop]
    refine ih _ hndrest ?_ (findById_saveById_none hmiss)
    intro it' hit'
    obtain ⟨q, q', hq, hopq⟩ := hok it' (List.mem_cons_of_mem _ hit')
    have hne : it'.productId ≠ it.productId := by
      intro hcontr
      exact hnotin (hcontr ▸ List.mem_map.mpr ⟨it', hit', rfl⟩)
    exact ⟨q, q', by rw [findById_saveById_ne hne]; exact hq, hopq⟩

/-- The sweep's guarded release loop never creates a key: a product that is
absent before the loop is absent after it. -/
theorem sweepReleaseLoop_none (items : List OrderItem)
    (ps : List (Nat × Product)) {k : Nat} (h : findById ps k = none) :
    findById (sweepReleaseLoop ps items) k = none := by
  induction items generalizing ps with
  | nil => exact h
  | cons it rest ih =>
    cases hfind : findById ps it.productId with
    | none =>
      have hstep : sweepReleaseLoop ps (it :: rest) =
          sweepReleaseLoop ps rest := by
        simp only [sweepReleaseLoop, hfind]
      rw [hstep]
      exact ih ps h
    | some p =>
      cases hrel : releaseReservedStock p it.quantity with
      | error e =>
        have hstep : sweepReleaseLoop ps (it :: rest) = ps := by
          simp only [sweepReleaseLoop, hfind, hrel]
        rw [hstep]
        exact h
      | ok p' =>
        have hstep : sweepReleaseLoop ps (it :: rest) =
            sweepReleaseLoop (saveById ps it.productId p') rest := by
          simp only [sweepReleaseLoop, hfind, hrel]
        rw [hstep]
        exact ih _ (findById_saveById_none h)

/-- When every line of `items` (pairwise-distinct ids) whose product exists
holds a sufficient reservation, the sweep's guarded release loop releases
exactly the lines whose product exists, skips the missing ones, and leaves
every other key untouched. -/
theorem sweepReleaseLoop_spec (items : List OrderItem)
    (ps : List (Nat × Product))
    (hnd : (items.map OrderItem.productId).Nodup)
    (hok : ∀ it ∈ items, ∀ p, findById ps it.productId = some p →
             it.quantity ≤ p.reservedStock) :
    (∀ it ∈ items, ∀ p, findById ps it.productId = some p →
       findById (sweepReleaseLoop ps items) it.productId =
         some { p with reservedStock := p.reservedStock - it.quantity,
                       availableStock := p.availableStock + it.quantity }) ∧
    (∀ k, k ∉ items.map OrderItem.productId →
       findById (sweepReleaseLoop ps items) k = findById ps k) := by
  induction items generalizing ps with
  | nil => simp [sweepReleaseLoop]
  | cons it rest ih =>
    simp only [List.map_cons, List.nodup_cons] at hnd
    obtain ⟨hnotin, hndrest⟩ := hnd
    cases hfind : findById ps it.productId with
    | none =>
      have hloop : sweepReleaseLoop ps (it :: rest) =
          sweepReleaseLoop ps rest := by
        simp only [sweepReleaseLoop, hfind]
      obtain ⟨ih1, ih2⟩ := ih ps hndrest
        (fun it' hit' => hok it' (List.mem_cons_of_mem _ hit'))
      constructor
      · intro it' hit' p hp
        rcases List.mem_cons.mp hit' with rfl | hmem
        · rw [hfind] at hp
          cases hp
        · rw [hloop]
          exact ih1 it' hmem p hp
      · intro k hk
        simp only [List.map_cons, List.mem_cons, not_or] at hk
        rw [hloop]
        exact ih2 k hk.2
    | some p =>
      have hq := hok it (List.mem_cons_self _ _) p hfind
      have hrel : releaseReservedStock p it.quantity =
          .ok { p with reservedStock := p.reservedStock - it.quantity,
                       availableStock := p.availableStock + it.quantity } := by
        rw [releaseReservedStock, if_neg (not_lt.mpr hq)]
      have hloop : sweepReleaseLoop ps (it :: rest) =
          sweepReleaseLoop
            (saveById ps it.productId
              { p with reservedStock := p.reservedStock - it.quantity,
                       availableStock := p.availableStock + it.quantity })
            rest := by
        simp only [sweepReleaseLoop, hfind, hrel]
      have hok' : ∀ it' ∈ rest, ∀ q,
          findById (saveById ps it.productId
            { p with reservedStock := p.reservedStock - it.quantity,
                     availableStock := p.availableStock + it.quantity })
            it'.productId = some q →
          it'.quantity ≤ q.reservedStock := by
        intro it' hit' q hq'
        have hne : it'.productId ≠ it.productId := by
          intro hcontr
          exact hnotin (hcontr ▸ List.mem_map.mpr ⟨it', hit', rfl⟩)
        rw [findById_saveById_ne hne] at hq'
        exact hok it' (List.mem_cons_of_mem _ hit') q hq'
      obtain ⟨ih1, ih2⟩ := ih _ hndrest hok'
      constructor
      · intro it' hit' p0 hp0
        rcases List.mem_cons.mp hit' with rfl | hmem
        · obtain rfl : p0 = p := Option.some.inj (hp0.symm.trans hfind)
          rw [hloop, ih2 it'.productId hnotin,
            findById_saveById_self _ hp0]
        · have hne : it'.productId ≠ it.productId := by
            intro hcontr
            exact hnotin (hcontr ▸ List.mem_map.mpr ⟨it', hmem, rfl⟩)
          have hp0' : findById (saveById ps it.productId
              { p with reservedStock := p.reservedStock - it.quantity,
                       availableStock := p.availableStock + it.quantity })
              it'.productId = some p0 := by
            rw [findById_saveById_ne hne]; exact hp0
          rw [hloop]
          exact ih1 it' hmem p0 hp0'
      · intro k hk
        simp only [List.map_cons, List.mem_cons, not_or] at hk
        rw [hloop, ih2 k hk.2, findById_saveById_ne hk.1]

/-- Processing one order in the sweep does not touch other orders. -/
theorem sweepOne_orders_ne (d : DB) (k : Nat) (o : Order) {j : Nat}
    (hne : j ≠ k) :
    findById (sweepOne d k o).orders j = findById d.orders j := by
  simp only [sweepOne]
  exact findById_saveById_ne hne

/-- Processing one order in the sweep saves it back with status CANCELLED. -/
theorem sweepOne_orders_self (d : DB) (k : Nat) (o : Order)
    (h : (findById d.orders k).isSome) :
    findById (sweepOne d k o).orders k =
      some { o with status := .CANCELLED } := by
  obtain ⟨v, hv⟩ := Option.isSome_iff_exists.mp h
  simp only [sweepOne]
  exact findById_saveById_self _ hv

/-- Processing one order in the sweep keeps every order key present. -/
theorem sweepOne_orders_isSome (d : DB) (k : Nat) (o : Order) {j : Nat}
    (h : (findById d.orders j).isSome) :
    (findById (sweepOne d k o).orders j).isSome := by
  by_cases hjk : j = k
  · subst hjk
    rw [sweepOne_orders_self d j o h]
    rfl
  · rw [sweepOne_orders_ne d k o hjk]
    exact h

/-- Once an order is stored as CANCELLED, the rest of the sweep batch keeps
it CANCELLED. -/
theorem sweepFold_preserves_cancelled (L : List (Nat × Order)) (d : DB)
    (oid : Nat)
    (h : ∃ o', findById d.orders oid = some o' ∧ o'.status = .CANCELLED) :
    ∃ o', findById
        (L.foldl (fun d kv => sweepOne d kv.1 kv.2) d).orders oid = some o' ∧
      o'.status = .CANCELLED := by
  induction L generalizing d with
  | nil => exact h
  | cons kv rest ih =>
    rw [List.foldl_cons]
    apply ih
    obtain ⟨o', ho', hst⟩ := h
    by_cases hk : oid = kv.1
    · subst hk
      exact ⟨_, sweepOne_orders_self d kv.1 kv.2 (by rw [ho']; rfl), rfl⟩
    · exact ⟨o', by rw [sweepOne_orders_ne _ _ _ hk]; exact ho', hst⟩

/-- The sweep batch processes every selected order: each ends up stored with
status CANCELLED. -/
theorem sweepFold_cancels (L : List (Nat × Order)) (d : DB)
    (hall : ∀ kv ∈ L, (findById d.orders (Prod.fst kv)).isSome) :
    ∀ kv ∈ L, ∃ o', findById
        (L.foldl (fun d kv => sweepOne d kv.1 kv.2) d).orders kv.1 = some o' ∧
      o'.status = .CANCELLED := by
  induction L generalizing d with
  | nil =>
    intro kv h
    simp at h
  | cons hd rest ih =>
    intro kv hkv
    rw [List.foldl_cons]
    rcases List.mem_cons.mp hkv with rfl | hmem
    · apply sweepFold_preserves_cancelled
      exact ⟨_, sweepOne_orders_self d kv.1 kv.2
        (hall kv (List.mem_cons_self _ _)), rfl⟩
    · exact ih (sweepOne d hd.1 hd.2)
        (fun kv' h' =>
          sweepOne_orders_isSome _ _ _ (hall kv' (List.mem_cons_of_mem _ h')))
        kv hmem

/-- C7 (amended): `cancelExpiredOrders` drives every order it finds with
status PENDING_PAYMENT and `paymentDeadline` before `now` to CANCELLED, but
it returns no count — its return value is `none` (JS `undefined`) on every
invocation; the number of cancelled orders is only logged. -/
theorem cancelExpiredOrders_cancels_but_returns_none
    (db : DB) (now : Int) (oid : Nat) (o : Order)
    (ho : findById db.orders oid = some o)
    (hs : o.status = .PENDING_PAYMENT)
    (hd : o.paymentDeadline < now) :
    (cancelExpiredOrders db now).2 = none ∧
    ∃ o', findById (cancelExpiredOrders db now).1.orders oid = some o' ∧
      o'.status = .CANCELLED := by
  have hmem : (oid, o) ∈ expiredOrders db now := by
    apply List.mem_filter.mpr
    refine ⟨findById_eq_some_mem ho, ?_⟩
    simp [hs, hd]
  have hempty : (expiredOrders db now).isEmpty = false := by
    cases hE : expiredOrders db now with
    | nil => exact absurd hE (List.ne_nil_of_mem hmem)
    | cons a l => rfl
  constructor
  · rw [cancelExpiredOrders]
    split <;> rfl
  · have hall : ∀ kv ∈ expiredOrders db now,
        (findById db.orders (Prod.fst kv)).isSome := by
      intro kv hkv
      obtain ⟨k, v⟩ := kv
      exact mem_findById_isSome (List.mem_filter.mp hkv).1
    have hres := sweepFold_cancels (expiredOrders db now) db hall (oid, o) hmem
    rw [cancelExpiredOrders, if_neg (by rw [hempty]; exact Bool.false_ne_true)]
    exact hres

/-- Witness for `cancelExpiredOrders_cancels_but_returns_none` on the
concrete state `dbC7` at time 500. -/
theorem cancelExpiredOrders_cancels_but_returns_none_witness :
    (cancelExpiredOrders dbC7 500).2 = none ∧
    ∃ o', findById (cancelExpiredOrders dbC7 500).1.orders 1 = some o' ∧
      o'.status = .CANCELLED :=
  cancelExpiredOrders_cancels_but_returns_none dbC7 500 1 orderC7
    rfl rfl (by decide)

/-- C4: a `pay` call by the owner of a PENDING_PAYMENT order whose deadline
has passed performs the cancellation itself — the stored order ends with
status CANCELLED and every line's reserved quantity is moved back to
`availableStock` — and then fails with `OrderExpired`; it does not silently
no-op.  (The cancellation and the releases are `save()` writes outside the
session, so they survive the `OrderExpired` throw that aborts the
transaction.) -/
theorem pay_expired_cancels_and_releases
    (db : DB) (now : Int) (oid uid : Nat) (ek : Bool) (order : Order)
    (ho : findById db.orders oid = some order)
    (hu : order.userId = uid)
    (hs : order.status = .PENDING_PAYMENT)
    (hexp : order.paymentDeadline < now)
    (hnd : (order.items.map OrderItem.productId).Nodup)
    (hprod : ∀ it ∈ order.items, ∃ p,
      findById db.products it.productId = some p ∧
      it.quantity ≤ p.reservedStock) :
    (pay db now oid uid ek).2 = .error .OrderExpired ∧
    findById (pay db now oid uid ek).1.orders oid =
      some { order with status := .CANCELLED } ∧
    (∀ it ∈ order.items, ∀ p, findById db.products it.productId = some p →
       findById (pay db now oid uid ek).1.products it.productId =
         some { p with reservedStock := p.reservedStock - it.quantity,
                       availableStock := p.availableStock + it.quantity }) := by
  have hok : ∀ it ∈ order.items, ∃ p,
      findById db.products it.productId = some p ∧
      releaseReservedStock p it.quantity =
        .ok ((fun p q => { p with reservedStock := p.reservedStock - q,
                                  availableStock := p.availableStock + q })
              p it.quantity) := by
    intro it hit
    obtain ⟨p, hp, hq⟩ := hprod it hit
    exact ⟨p, hp, by rw [releaseReservedStock, if_neg (not_lt.mpr hq)]⟩
  obtain ⟨hl1, hl2, hl3⟩ := stockLoop_spec releaseReservedStock
    (fun p q => { p with reservedStock := p.reservedStock - q,
                         availableStock := p.availableStock + q })
    order.items db.products hnd hok
  have hexpired : isExpired order now = true := by
    simp [isExpired, hs, hexp]
  rcases hsl : stockLoop releaseReservedStock db.products order.items
    with ⟨ps, r⟩
  obtain rfl : r = .ok () := by rw [hsl] at hl1; exact hl1
  have hpay : pay db now oid uid ek =
      ({ db with
          orders := saveById db.orders oid { order with status := .CANCELLED },
          products := ps }, .error .OrderExpired) := by
    simp only [pay, ho, hu, hs, hexpired, hsl]
    simp
  refine ⟨by rw [hpay], ?_, ?_⟩
  · rw [hpay]
    exact findById_saveById_self _ ho
  · intro it hit p hp
    rw [hpay]
    have := hl2 it hit p hp
    rw [hsl] at this
    exact this

/-- Witness for `pay_expired_cancels_and_releases` on the concrete state
`dbC4` (order 1 of user 7, expired at time 500). -/
theorem pay_expired_cancels_and_releases_witness :
    (pay dbC4 500 1 7 true).2 = .error .OrderExpired ∧
    findById (pay dbC4 500 1 7 true).1.orders 1 =
      some { orderC4 with status := .CANCELLED } ∧
    (∀ it ∈ orderC4.items, ∀ p, findById dbC4.products it.productId = some p →
       findById (pay dbC4 500 1 7 true).1.products it.productId =
         some { p with reservedStock := p.reservedStock - it.quantity,
                       availableStock := p.availableStock + it.quantity }) :=
  pay_expired_cancels_and_releases dbC4 500 1 7 true orderC4 rfl rfl rfl
    (by decide) (by decide)
    (by intro it hit
        have h : it = ⟨1, 2, 10⟩ := by simpa [orderC4] using hit
        subst h
        exact ⟨⟨10, 5, 3, 2⟩, rfl, by decide⟩)

/-- C6 (amended): when `emailQueue.add` fails during a `pay` call on a
non-expired pending order, the order's PAID status and the per-line stock
confirmations survive (they are `save()` writes outside the session) and no
notification job is enqueued, but the payment-record creation — staged on
the session — is rolled back with the aborting transaction, and the call
fails with the enqueue error. -/
theorem pay_enqueue_failure_keeps_paid_and_confirm
    (db : DB) (now : Int) (oid uid : Nat) (order : Order)
    (ho : findById db.orders oid = some order)
    (hu : order.userId = uid)
    (hs : order.status = .PENDING_PAYMENT)
    (hnotexp : now ≤ order.paymentDeadline)
    (hnd : (order.items.map OrderItem.productId).Nodup)
    (hprod : ∀ it ∈ order.items, ∃ p,
      findById db.products it.productId = some p ∧
      it.quantity ≤ p.reservedStock) :
    (pay db now oid uid false).2 = .error .EnqueueFailed ∧
    findById (pay db now oid uid false).1.orders oid =
      some { order with status := .PAID } ∧
    (∀ it ∈ order.items, ∀ p, findById db.products it.productId = some p →
       findById (pay db now oid uid false).1.products it.productId =
         some { p with reservedStock := p.reservedStock - it.quantity,
                       stock := p.stock - it.quantity }) ∧
    (pay db now oid uid false).1.payments = db.payments ∧
    (pay db now oid uid false).1.jobs = db.jobs := by
  have hok : ∀ it ∈ order.items, ∃ p,
      findById db.products it.productId = some p ∧
      confirmStockDeduction p it.quantity =
        .ok ((fun p q => { p with reservedStock := p.reservedStock - q,
                                  stock := p.stock - q }) p it.quantity) := by
    intro it hit
    obtain ⟨p, hp, hq⟩ := hprod it hit
    exact ⟨p, hp, by rw [confirmStockDeduction, if_neg (not_lt.mpr hq)]⟩
  obtain ⟨hl1, hl2, hl3⟩ := stockLoop_spec confirmStockDeduction
    (fun p q => { p with reservedStock := p.reservedStock - q,
                         stock := p.stock - q })
    order.items db.products hnd hok
  have hexpired : isExpired order now = false := by
    rw [isExpired]
    simp [hs]
    omega
  rcases hsl : stockLoop confirmStockDeduction db.products order.items
    with ⟨ps, r⟩
  obtain rfl : r = .ok () := by rw [hsl] at hl1; exact hl1
  have hpay : pay db now oid uid false =
      ({ db with
          orders := saveById db.orders oid { order with status := .PAID },
          products := ps }, .error .EnqueueFailed) := by
    simp only [pay, ho, hu, hs, hexpired, hsl]
    simp
  refine ⟨by rw [hpay], ?_, ?_, by rw [hpay], by rw [hpay]⟩
  · rw [hpay]
    exact findById_saveById_self _ ho
  · intro it hit p hp
    rw [hpay]
    have := hl2 it hit p hp
    rw [hsl] at this
    exact this

/-- Witness for `pay_enqueue_failure_keeps_paid_and_confirm` on the
concrete state `dbC6` (order 1 of user 7, not yet expired at time 500). -/
theorem pay_enqueue_failure_keeps_paid_and_confirm_witness :
    (pay dbC6 500 1 7 false).2 = .error .EnqueueFailed ∧
    findById (pay dbC6 500 1 7 false).1.orders 1 =
      some { orderC6 with status := .PAID } ∧
    (∀ it ∈ orderC6.items, ∀ p, findById dbC6.products it.productId = some p →
       findById (pay dbC6 500 1 7 false).1.products it.productId =
         some { p with reservedStock := p.reservedStock - it.quantity,
                       stock := p.stock - it.quantity }) ∧
    (pay dbC6 500 1 7 false).1.payments = dbC6.payments ∧
    (pay dbC6 500 1 7 false).1.jobs = dbC6.jobs :=
  pay_enqueue_failure_keeps_paid_and_confirm dbC6 500 1 7 orderC6 rfl rfl rfl
    (by decide) (by decide)
    (by intro it hit
        have h : it = ⟨1, 2, 10⟩ := by simpa [orderC6] using hit
        subst h
        exact ⟨⟨10, 5, 3, 2⟩, rfl, by decide⟩)

/-- C10: when the expiry sweep cancels an expired order one of whose lines
references a product that no longer exists, the missing line is skipped
silently (`if (product)` guard in `orderTimeout.js`): the order is still
stored as CANCELLED, releases are applied exactly to the lines whose
product exists, the missing key stays absent, and the per-order step
returns normally (so the rest of the batch continues — `sweepOne` is a
total function and `cancelExpiredOrders` folds it over the whole batch).
The pay handler's expiry release loop has no such guard: on the same order
it hits the missing product after releasing the lines before it and the
call fails with the JS `TypeError` (not `OrderExpired`), the partial
durable writes — the CANCELLED save included — remaining. -/
theorem sweep_skips_missing_product_pay_crashes
    (db : DB) (now : Int) (oid uid : Nat) (ek : Bool) (order : Order)
    (pre post : List OrderItem) (miss : OrderItem)
    (hitems : order.items = pre ++ miss :: post)
    (hmiss : findById db.products miss.productId = none)
    (ho : findById db.orders oid = some order)
    (hu : order.userId = uid)
    (hs : order.status = .PENDING_PAYMENT)
    (hexp : order.paymentDeadline < now)
    (hnd : (order.items.map OrderItem.productId).Nodup)
    (hok : ∀ it ∈ order.items, ∀ p, findById db.products it.productId = some p →
             it.quantity ≤ p.reservedStock)
    (hpre : ∀ it ∈ pre, (findById db.products it.productId).isSome) :
    (findById (sweepOne db oid order).orders oid =
       some { order with status := .CANCELLED } ∧
     (∀ it ∈ order.items, ∀ p, findById db.products it.productId = some p →
        findById (sweepOne db oid order).products it.productId =
          some { p with reservedStock := p.reservedStock - it.quantity,
                        availableStock := p.availableStock + it.quantity }) ∧
     findById (sweepOne db oid order).products miss.productId = none) ∧
    ((pay db now oid uid ek).2 = .error .TypeErr ∧
     findById (pay db now oid uid ek).1.orders oid =
       some { order with status := .CANCELLED }) := by
  have hprodEq : (sweepOne db oid order).products =
      sweepReleaseLoop db.products order.items := rfl
  obtain ⟨hs1, hs2⟩ := sweepReleaseLoop_spec order.items db.products hnd hok
  have hndpre : (pre.map OrderItem.productId).Nodup := by
    rw [hitems, List.map_append] at hnd
    exact hnd.of_append_left
  have hokpre : ∀ it ∈ pre, ∃ p p',
      findById db.products it.productId = some p ∧
      releaseReservedStock p it.quantity = .ok p' := by
    intro it hit
    obtain ⟨p, hp⟩ := Option.isSome_iff_exists.mp (hpre it hit)
    have hq := hok it (by rw [hitems]; exact List.mem_append_left _ hit) p hp
    exact ⟨p, _, hp, by rw [releaseReservedStock, if_neg (not_lt.mpr hq)]⟩
  have hml := stockLoop_missing releaseReservedStock pre miss post
    db.products hndpre hokpre hmiss
  rw [← hitems] at hml
  rcases hsl : stockLoop releaseReservedStock db.products order.items
    with ⟨ps, r⟩
  obtain rfl : r = .error .TypeErr := by rw [hsl] at hml; exact hml
  have hexpired : isExpired order now = true := by
    simp [isExpired, hs, hexp]
  have hpay : pay db now oid uid ek =
      ({ db with
          orders := saveById db.orders oid { order with status := .CANCELLED },
          products := ps }, .error .TypeErr) := by
    simp only [pay, ho, hu, hs, hexpired, hsl]
    simp
  refine ⟨⟨?_, ?_, ?_⟩, by rw [hpay], ?_⟩
  · exact sweepOne_orders_self db oid order (by rw [ho]; rfl)
  · intro it hit p hp
    rw [hprodEq]
    exact hs1 it hit p hp
  · rw [hprodEq]
    exact sweepReleaseLoop_none order.items db.products hmiss
  · rw [hpay]
    exact findById_saveById_self _ ho

/-- Witness for `sweep_skips_missing_product_pay_crashes` on `dbC10`:
`orderC10` is expired at time 500, its first line's product 1 exists with a
sufficient reservation, its second line's product 2 is missing. -/
theorem sweep_skips_missing_product_pay_crashes_witness :
    (findById (sweepOne dbC10 1 orderC10).orders 1 =
       some { orderC10 with status := .CANCELLED } ∧
     (∀ it ∈ orderC10.items, ∀ p,
        findById dbC10.products it.productId = some p →
        findById (sweepOne dbC10 1 orderC10).products it.productId =
          some { p with reservedStock := p.reservedStock - it.quantity,
                        availableStock := p.availableStock + it.quantity }) ∧
     findById (sweepOne dbC10 1 orderC10).products 2 = none) ∧
    ((pay dbC10 500 1 7 true).2 = .error .TypeErr ∧
     findById (pay dbC10 500 1 7 true).1.orders 1 =
       some { orderC10 with status := .CANCELLED }) :=
  sweep_skips_missing_product_pay_crashes dbC10 500 1 7 true orderC10
    [⟨1, 1, 10⟩] [] ⟨2, 1, 20⟩ rfl rfl rfl rfl rfl (by decide) (by decide)
    (by intro it hit p hp
        rcases (by simpa [orderC10] using hit :
            it = (⟨1, 1, 10⟩ : OrderItem) ∨ it = ⟨2, 1, 20⟩) with rfl | rfl
        · have hp' : some (⟨10, 5, 4, 1⟩ : Product) = some p := hp
          obtain rfl := Option.some.inj hp'
          decide
        · have hp' : (none : Option Product) = some p := hp
          exact Option.noConfusion hp')
    (by intro it hit
        have h : it = ⟨1, 1, 10⟩ := by simpa using hit
        subst h
        rfl)
